import Mathlib

/-!
# ArrayFire: the norm layer (`src/api/c/norm.cpp`) and the scan instantiation table
(`src/backend/opencl/scan.cpp`)

The norm layer is embedded over an idealised scalar model: the C++ types `double`,
`float`, `half` and the base type of a complex type are identified with one carrier `α`
whose arithmetic is a record of operations (`Arith`), and the element type `T` of the
input is a second carrier `τ` with `abs : τ → α` (absolute value, or modulus for a
complex `T`).  Every function of `norm.cpp` is a Lean function of the same name; next to
its value it returns the list of engine calls it makes, in program order.
-/

namespace ArrayFire

/-! ## Enumerations -/

/-- Error codes returned at the C boundary (`af/defines.h`). -/
inductive af_err where
  | AF_SUCCESS
  | AF_ERR_ARG
  | AF_ERR_SIZE
  | AF_ERR_TYPE
  | AF_ERR_BATCH
  | AF_ERR_NOT_SUPPORTED
  deriving DecidableEq, Repr

/-- Element type tags (`af_dtype`). -/
inductive af_dtype where
  | f32 | c32 | f64 | c64 | b8 | s32 | u32 | u8 | s64 | u64 | s16 | u16 | f16 | s8
  deriving DecidableEq, Repr

/-- Norm kinds (`af_norm_type`); `other` stands for an enumerator value that the `switch`
of `norm` does not list and that therefore takes its `default` branch. -/
inductive af_norm_type where
  | AF_NORM_VECTOR_1
  | AF_NORM_VECTOR_INF
  | AF_NORM_EUCLID
  | AF_NORM_VECTOR_P
  | AF_NORM_MATRIX_1
  | AF_NORM_MATRIX_INF
  | AF_NORM_MATRIX_2
  | AF_NORM_MATRIX_L_PQ
  | other (code : Nat)
  deriving DecidableEq, Repr

/-- Operators of the reduction, scan and elementwise engines (`af_op_t`). -/
inductive af_op_t where
  | af_add_t | af_mul_t | af_min_t | af_max_t | af_notzero_t | af_pow_t
  deriving DecidableEq, Repr

/-! ## The scan instantiation table (`scan.cpp`, lines 33-55) -/

/-- C++ element types named by the instantiation macros of `scan.cpp`. -/
inductive CType where
  | float | double | cfloat | cdouble | int | uint | intl | uintl
  | char | schar | uchar | short | ushort
  deriving DecidableEq, Repr

/-- One explicit instantiation `scan<ROp, Ti, To>`. -/
structure ScanInst where
  ROp : af_op_t
  Ti : CType
  To : CType
  deriving DecidableEq, Repr

/-- The macro `INSTANTIATE_SCAN(ROp, Ti, To)`. -/
def INSTANTIATE_SCAN (ROp : af_op_t) (Ti To : CType) : ScanInst := ⟨ROp, Ti, To⟩

/-- The macro `INSTANTIATE_SCAN_ALL(ROp)`: thirteen instantiations, the same for each
operator. -/
def INSTANTIATE_SCAN_ALL (ROp : af_op_t) : List ScanInst :=
  [ INSTANTIATE_SCAN ROp .float .float,
    INSTANTIATE_SCAN ROp .double .double,
    INSTANTIATE_SCAN ROp .cfloat .cfloat,
    INSTANTIATE_SCAN ROp .cdouble .cdouble,
    INSTANTIATE_SCAN ROp .int .int,
    INSTANTIATE_SCAN ROp .uint .uint,
    INSTANTIATE_SCAN ROp .intl .intl,
    INSTANTIATE_SCAN ROp .uintl .uintl,
    INSTANTIATE_SCAN ROp .char .uint,
    INSTANTIATE_SCAN ROp .schar .int,
    INSTANTIATE_SCAN ROp .uchar .uint,
    INSTANTIATE_SCAN ROp .short .int,
    INSTANTIATE_SCAN ROp .ushort .uint ]

/-- All instantiations of `scan.cpp`, in file order (lines 51-55). -/
def scanInstances : List ScanInst :=
  INSTANTIATE_SCAN .af_notzero_t .char .uint
    :: (INSTANTIATE_SCAN_ALL .af_add_t ++ INSTANTIATE_SCAN_ALL .af_mul_t
        ++ INSTANTIATE_SCAN_ALL .af_min_t ++ INSTANTIATE_SCAN_ALL .af_max_t)

/-- Result types instantiated for an operator and an input type. -/
def scanResultTypes (ROp : af_op_t) (Ti : CType) : List CType :=
  (scanInstances.filter fun s => s.ROp = ROp ∧ s.Ti = Ti).map ScanInst.To

/-- The narrow integer element types: signed and unsigned, 8 and 16 bit. -/
def isNarrowInt : CType → Bool
  | .schar | .uchar | .short | .ushort => true
  | _ => false

/-- The 32-bit integer type of the same signedness as a narrow integer type. -/
def matching32 : CType → CType
  | .schar | .short => .int
  | .uchar | .ushort => .uint
  | t => t

/-! ## Shapes and dense arrays -/

/-- Modelled from the spec: the shape type `af::dim4` is not under src/; a shape is four
per-axis extents and its element count is their product. -/
structure dim4 where
  d0 : Nat
  d1 : Nat
  d2 : Nat
  d3 : Nat
  deriving DecidableEq, Repr

namespace dim4

/-- The extent of axis `k`. -/
def get (d : dim4) : Nat → Nat
  | 0 => d.d0
  | 1 => d.d1
  | 2 => d.d2
  | _ => d.d3

/-- The shape with the extent of axis `k` replaced by `v`. -/
def set (d : dim4) (k v : Nat) : dim4 :=
  match k with
  | 0 => { d with d0 := v }
  | 1 => { d with d1 := v }
  | 2 => { d with d2 := v }
  | _ => { d with d3 := v }

/-- The element count, `dim4::elements()`. -/
def elements (d : dim4) : Nat := d.d0 * d.d1 * d.d2 * d.d3

/-- Modelled from the spec: `dim4::ndims()` is not under src/; an empty shape has rank 0,
otherwise the rank is the number of leading axes up to the last extent other than 1
(at least 1). -/
def ndims (d : dim4) : Nat :=
  if d.elements = 0 then 0
  else if d.elements = 1 then 1
  else if d.d3 ≠ 1 then 4
  else if d.d2 ≠ 1 then 3
  else if d.d1 ≠ 1 then 2
  else 1

/-- Coordinates of the column-major linear index `o` in shape `d` (axis 0 fastest). -/
def unravel (d : dim4) (o : Nat) : dim4 :=
  ⟨o % d.d0, (o / d.d0) % d.d1, (o / (d.d0 * d.d1)) % d.d2, o / (d.d0 * d.d1 * d.d2)⟩

/-- Column-major linear index of the coordinates `c` in shape `d`. -/
def ravel (d c : dim4) : Nat :=
  c.d0 + d.d0 * (c.d1 + d.d1 * (c.d2 + d.d2 * c.d3))

end dim4

/-- A dense array `Array<T>`: a shape and its elements in column-major order. -/
structure Arr (α : Type) where
  dims : dim4
  data : List α

/-- The element at coordinates `c`; `z` is returned outside the buffer, which no read of
a well-formed array reaches. -/
def Arr.at {α : Type} (z : α) (A : Arr α) (c : dim4) : α :=
  A.data.getD (A.dims.ravel c) z

/-- Modelled from the spec: the evaluator of the elementwise engine is not under src/,
and the spec does not say how `apply(op, a, b)` reads an operand smaller than the output
shape; the rule of the library's batched evaluation is taken: an operand is read at the
output coordinate along every axis on which it has that coordinate, and at coordinate 0
along an axis on which it is too short (an operand of extent 1 is repeated along that
axis). -/
def Arr.bat {α : Type} (z : α) (A : Arr α) (c : dim4) : α :=
  A.at z ⟨if c.d0 < A.dims.d0 then c.d0 else 0, if c.d1 < A.dims.d1 then c.d1 else 0,
          if c.d2 < A.dims.d2 then c.d2 else 0, if c.d3 < A.dims.d3 then c.d3 else 0⟩

/-- Scalar arithmetic of the idealised number model: the constants `0`, `1`, `2`,
`af::Inf` and the identity of `max` (the lowest value), the binary operations of the
engines, `std::pow` and division, and `std::sqrt`. -/
structure Arith (α : Type) where
  zero : α
  one : α
  two : α
  inf : α
  lowest : α
  add : α → α → α
  mul : α → α → α
  max : α → α → α
  pow : α → α → α
  div : α → α → α
  sqrt : α → α

/-- Engine calls recorded by the norm layer, in program order. -/
inductive Call where
  | abs
  | cast
  | createValueArray
  | arithOp (op : af_op_t)
  | reduce (op : af_op_t) (dim : Nat)
  | reduce_all (op : af_op_t)
  deriving DecidableEq, Repr

/-! ## The engines consumed by the norm layer -/

/-- Modelled from the spec: `detail::reduce` is not under src/; `reduceAxis` folds every
line along `dim` with the operator, starting from its identity element, and the result
has the input shape with the extent of `dim` replaced by 1. -/
def reduce {α : Type} (f : α → α → α) (init z : α) (A : Arr α) (dim : Nat) : Arr α :=
  let od := A.dims.set dim 1
  { dims := od
    data := (List.range od.elements).map fun o =>
      let c := od.unravel o
      (List.range (A.dims.get dim)).foldl (fun acc k => f acc (A.at z (c.set dim k))) init }

/-- Modelled from the spec: `detail::reduce_all` is not under src/; `reduceAll` folds all
elements with the operator, starting from its identity element, into a one-element
array. -/
def reduce_all {α : Type} (f : α → α → α) (init : α) (A : Arr α) : Arr α :=
  { dims := ⟨1, 1, 1, 1⟩, data := [A.data.foldl f init] }

/-- Modelled from the spec: `detail::getScalar` is not under src/; `extractScalar` reads
the single value of a reduced array. -/
def getScalar {α : Type} (z : α) (A : Arr α) : α := A.data.headD z

/-- Modelled from the spec: `detail::createValueArray` is not under src/; `fill(shape,
value)` is the array of that shape holding the value everywhere. -/
def createValueArray {α : Type} (dims : dim4) (v : α) : Arr α :=
  { dims := dims, data := List.replicate dims.elements v }

/-- Modelled from the spec: `detail::arithOp` is not under src/; elementwise `apply(op,
a, b)` into an array of the output shape `odims` passed as third argument, each operand
read by `Arr.bat`. -/
def arithOp {α : Type} (f : α → α → α) (z : α) (lhs rhs : Arr α) (odims : dim4) : Arr α :=
  { dims := odims
    data := (List.range odims.elements).map fun o =>
      f (lhs.bat z (odims.unravel o)) (rhs.bat z (odims.unravel o)) }

/-- Modelled from the spec: `detail::abs` is not under src/; elementwise absolute value
(modulus of a complex element) into an array of the same shape over the base type. -/
def abs {τ α : Type} (absT : τ → α) (A : Arr τ) : Arr α :=
  { dims := A.dims, data := A.data.map absT }

/-- Modelled from the spec: `common::cast` is not under src/; in the idealised number
model a conversion between floating types keeps every value. -/
def cast {α : Type} (A : Arr α) : Arr α := A

/-! ## The norm layer (`norm.cpp`) -/

/-- What a norm routine yields: its value, or the error it raised, and the engine calls
it made. -/
abbrev Traced (α : Type) := Except af_err α × List Call

section norms
variable {α : Type} [DecidableEq α]

/-- `matrixNorm` (lines 45-59). -/
def matrixNorm (ops : Arith α) (A : Arr α) (p : α) : Traced α :=
  if p = ops.one then
    let colSum := reduce ops.add ops.zero ops.zero A 0
    (.ok (getScalar ops.zero (reduce_all ops.max ops.lowest colSum)),
      [.reduce .af_add_t 0, .reduce_all .af_max_t])
  else if p = ops.inf then
    let rowSum := reduce ops.add ops.zero ops.zero A 1
    (.ok (getScalar ops.zero (reduce_all ops.max ops.lowest rowSum)),
      [.reduce .af_add_t 1, .reduce_all .af_max_t])
  else
    (.error .AF_ERR_NOT_SUPPORTED, [])

/-- `vectorNorm` (lines 61-75). -/
def vectorNorm (ops : Arith α) (A : Arr α) (p : α) : Traced α :=
  if p = ops.one then
    (.ok (getScalar ops.zero (reduce_all ops.add ops.zero A)), [.reduce_all .af_add_t])
  else if p = ops.inf then
    (.ok (getScalar ops.zero (reduce_all ops.max ops.lowest (cast A))),
      [.cast, .reduce_all .af_max_t])
  else if p = ops.two then
    let A_sq := arithOp ops.mul ops.zero A A A.dims
    (.ok (ops.sqrt (getScalar ops.zero (reduce_all ops.add ops.zero A_sq))),
      [.arithOp .af_mul_t, .reduce_all .af_add_t])
  else
    let P := createValueArray A.dims p
    let A_p := arithOp ops.pow ops.zero A P A.dims
    (.ok (ops.pow (getScalar ops.zero (reduce_all ops.add ops.zero A_p)) (ops.div ops.one p)),
      [.createValueArray, .arithOp .af_pow_t, .reduce_all .af_add_t])

/-- First stage of `LPQNorm` (lines 80-91): the array `A_p_norm` and the calls made; the
empty array that `A_p_norm` holds before either branch assigns it is never read. -/
def LPQNorm_A_p_norm (ops : Arith α) (A : Arr α) (p : α) : Arr α × List Call :=
  if p = ops.one then
    (reduce ops.add ops.zero ops.zero A 0, [.reduce .af_add_t 0])
  else
    let P := createValueArray A.dims p
    let invP := createValueArray A.dims (ops.div ops.one p)
    let A_p := arithOp ops.pow ops.zero A P A.dims
    let A_p_sum := reduce ops.add ops.zero ops.zero A_p 0
    (arithOp ops.pow ops.zero A_p_sum invP invP.dims,
      [.createValueArray, .createValueArray, .arithOp .af_pow_t, .reduce .af_add_t 0,
       .arithOp .af_pow_t])

/-- `LPQNorm` (lines 77-102). -/
def LPQNorm (ops : Arith α) (A : Arr α) (p q : α) : Traced α :=
  let A_p_norm := (LPQNorm_A_p_norm ops A p).1
  let calls := (LPQNorm_A_p_norm ops A p).2
  if q = ops.one then
    (.ok (getScalar ops.zero (reduce_all ops.add ops.zero A_p_norm)),
      calls ++ [.reduce_all .af_add_t])
  else
    let Q := createValueArray A_p_norm.dims q
    let A_p_norm_q := arithOp ops.pow ops.zero A_p_norm Q Q.dims
    (.ok (ops.pow (getScalar ops.zero (reduce_all ops.add ops.zero A_p_norm_q))
        (ops.div ops.one q)),
      calls ++ [.createValueArray, .arithOp .af_pow_t, .reduce_all .af_add_t])

/-- A norm routine run after `detail::abs`, whose call comes first. -/
def afterAbs (r : Traced α) : Traced α := (r.1, Call.abs :: r.2)

/-- `norm<T>` (lines 104-124): `A = abs(getArray<T>(a))`, then the `switch` on the
kind. -/
def norm {τ : Type} (ops : Arith α) (absT : τ → α) (a : Arr τ) (type : af_norm_type)
    (p q : α) : Traced α :=
  let A := abs absT a
  match type with
  | .AF_NORM_EUCLID => afterAbs (vectorNorm ops A ops.two)
  | .AF_NORM_VECTOR_1 => afterAbs (vectorNorm ops A ops.one)
  | .AF_NORM_VECTOR_INF => afterAbs (vectorNorm ops A ops.inf)
  | .AF_NORM_VECTOR_P => afterAbs (vectorNorm ops A p)
  | .AF_NORM_MATRIX_1 => afterAbs (matrixNorm ops A ops.one)
  | .AF_NORM_MATRIX_INF => afterAbs (matrixNorm ops A ops.inf)
  | .AF_NORM_MATRIX_2 => afterAbs (matrixNorm ops A ops.two)
  | .AF_NORM_MATRIX_L_PQ => afterAbs (LPQNorm ops A p q)
  | .other _ => afterAbs (.error .AF_ERR_NOT_SUPPORTED, [])

end norms

/-- An array handle `af_array`: the element type tag, the shape and the elements. -/
structure af_array (τ : Type) where
  type : af_dtype
  dims : dim4
  data : List τ

/-- `getArray<T>`: the typed array behind a handle. -/
def getArray {τ : Type} (a : af_array τ) : Arr τ := ⟨a.dims, a.data⟩

/-- Modelled from the spec: `ArrayInfo::isFloating` is not under src/; it holds of the
floating and complex element types, that is of every type that is neither an integer
type nor boolean. -/
def isFloating : af_dtype → Bool
  | .f32 | .f64 | .c32 | .c64 | .f16 => true
  | _ => false

/-- Modelled from the spec: the macro `ARG_ASSERT` of `common/err_common.hpp` is not
under src/; the spec gives the rejection of an element type outside the layer's supported
set (an integer-typed tensor into the norm layer) the kind TypeError, so an assertion
whose condition is false raises the type error. -/
def ARG_ASSERT (cond : Bool) : Except af_err Unit :=
  if cond then .ok () else .error .AF_ERR_TYPE

/-- Modelled from the spec: the macro `TYPE_ERROR` of `common/err_common.hpp` is not
under src/; it raises the type error. -/
def TYPE_ERROR : af_err := .AF_ERR_TYPE

/-- What a call of `af_norm` leaves behind: the returned code, the content of `*out`
after the call, and the engine calls made. -/
structure NormResult (α : Type) where
  err : af_err
  out : α
  calls : List Call
  deriving DecidableEq

/-- The assignment `*out = norm<T>(in, type, p, q)` inside the `try` block, `*out`
holding 0 beforehand: an error raised by `norm` leaves the 0 and becomes the returned
code (`CATCHALL`). -/
def assignNorm {α : Type} (ops : Arith α) (r : Traced α) : NormResult α :=
  match r.1 with
  | .ok v => ⟨.AF_SUCCESS, v, r.2⟩
  | .error e => ⟨e, ops.zero, r.2⟩

/-- `af_norm` (lines 126-151); `out0` is the content of `*out` before the call. -/
def af_norm {τ α : Type} [DecidableEq α] (ops : Arith α) (absT : τ → α) (out0 : α)
    (in_ : af_array τ) (type : af_norm_type) (p q : α) : NormResult α :=
  if in_.dims.ndims > 2 then ⟨.AF_ERR_BATCH, out0, []⟩
  else
    match ARG_ASSERT (isFloating in_.type) with
    | .error e => ⟨e, out0, []⟩
    | .ok () =>
      if in_.dims.ndims = 0 then ⟨.AF_SUCCESS, ops.zero, []⟩
      else
        match in_.type with
        | .f32 => assignNorm ops (norm ops absT (getArray in_) type p q)
        | .f64 => assignNorm ops (norm ops absT (getArray in_) type p q)
        | .c32 => assignNorm ops (norm ops absT (getArray in_) type p q)
        | .c64 => assignNorm ops (norm ops absT (getArray in_) type p q)
        | .f16 => assignNorm ops (norm ops absT (getArray in_) type p q)
        | _ => ⟨TYPE_ERROR, ops.zero, []⟩

/-! ## An exact instance of the number model

Finite values are rationals and are never rounded; the two infinities and NaN are
separate values.  A root that is not rational has no exact value here and is given as
NaN. -/

/-- Values of the exact model of `double`. -/
inductive Dbl where
  | fin (q : ℚ)
  | pinf
  | ninf
  | nan
  deriving DecidableEq

namespace Dbl

/-- Sign of a value other than NaN: `-1`, `0` or `1`. -/
def sgn : Dbl → Int
  | fin q => if q < 0 then -1 else if q = 0 then 0 else 1
  | pinf => 1
  | ninf => -1
  | nan => 0

/-- The infinity of a sign, NaN for sign 0. -/
def ofSign (s : Int) : Dbl := if s = 0 then nan else if 0 < s then pinf else ninf

/-- Absolute value. -/
def abs : Dbl → Dbl
  | fin q => fin |q|
  | pinf => pinf
  | ninf => pinf
  | nan => nan

/-- Addition. -/
def add : Dbl → Dbl → Dbl
  | fin a, fin b => fin (a + b)
  | nan, _ => nan
  | _, nan => nan
  | pinf, ninf => nan
  | ninf, pinf => nan
  | pinf, _ => pinf
  | _, pinf => pinf
  | ninf, _ => ninf
  | _, ninf => ninf

/-- Multiplication. -/
def mul : Dbl → Dbl → Dbl
  | fin a, fin b => fin (a * b)
  | nan, _ => nan
  | _, nan => nan
  | x, y => ofSign (sgn x * sgn y)

/-- Division. -/
def div : Dbl → Dbl → Dbl
  | nan, _ => nan
  | _, nan => nan
  | fin a, fin b => if b = 0 then ofSign (sgn (fin a)) else fin (a / b)
  | fin _, _ => fin 0
  | x, fin b => ofSign (sgn x * (if b < 0 then -1 else 1))
  | _, _ => nan

/-- The comparison `a > b`, false when either side is NaN. -/
def gt : Dbl → Dbl → Bool
  | nan, _ => false
  | _, nan => false
  | fin a, fin b => decide (b < a)
  | pinf, pinf => false
  | pinf, _ => true
  | _, pinf => false
  | ninf, _ => false
  | _, ninf => true

/-- The maximum `a > b ? a : b`. -/
def max (a b : Dbl) : Dbl := if gt a b then a else b

/-- The natural number whose `k`-th power is `n`, if there is one. -/
def iroot (k n : Nat) : Option Nat := (List.range (n + 1)).find? fun r => r ^ k = n

/-- The non-negative rational whose `k`-th power is `x`, if there is one. -/
def qroot (k : Nat) (x : ℚ) : Option ℚ :=
  if x < 0 then none
  else
    match iroot k x.num.toNat, iroot k x.den with
    | some a, some b => some ((a : ℚ) / (b : ℚ))
    | _, _ => none

/-- An integer power of a rational. -/
def ipow (r : ℚ) (n : Int) : Dbl :=
  if 0 ≤ n then fin (r ^ n.toNat)
  else if r = 0 then pinf
  else fin (1 / r ^ (-n).toNat)

/-- The power function on exact values: `x ^ (a / b)` is the `a`-th power of the
`b`-th root of `x`. -/
def pow : Dbl → Dbl → Dbl
  | fin x, fin y =>
    if y = 0 then fin 1
    else if y.den = 1 then ipow x y.num
    else
      match qroot y.den x with
      | some r => ipow r y.num
      | none => nan
  | nan, fin y => if y = 0 then fin 1 else nan
  | _, nan => nan
  | nan, _ => nan
  | fin x, pinf => if |x| < 1 then fin 0 else if |x| = 1 then fin 1 else pinf
  | fin x, ninf => if |x| < 1 then pinf else if |x| = 1 then fin 1 else fin 0
  | pinf, fin y => if 0 < y then pinf else fin 0
  | ninf, fin y => if y < 0 then fin 0 else if y.den = 1 ∧ y.num % 2 = 1 then ninf else pinf
  | _, pinf => pinf
  | _, ninf => fin 0

/-- The square root on exact values. -/
def sqrt : Dbl → Dbl
  | fin q =>
    match qroot 2 q with
    | some r => fin r
    | none => nan
  | pinf => pinf
  | _ => nan

end Dbl

/-- The exact number model as an `Arith`. -/
def dbl : Arith Dbl where
  zero := .fin 0
  one := .fin 1
  two := .fin 2
  inf := .pinf
  lowest := .ninf
  add := Dbl.add
  mul := Dbl.mul
  max := Dbl.max
  pow := Dbl.pow
  div := Dbl.div
  sqrt := Dbl.sqrt

/-- A real-typed (`f64`) handle of the given shape over the exact model. -/
def f64Array (dims : dim4) (data : List ℚ) : af_array Dbl :=
  { type := .f64, dims := dims, data := data.map Dbl.fin }

/-! ## The norms as the specification words them -/

section specification
variable {τ α : Type}

/-- The absolute value `|A[i][j]|` of the entry in row `i` and column `j` of a
column-major matrix with `dims.d0` rows. -/
def af_array.absAt (absT : τ → α) (z : α) (in_ : af_array τ) (i j : Nat) : α :=
  (in_.data.map absT).getD (i + in_.dims.d0 * j) z

/-- The sum of a list, added up from 0. -/
def sumList (ops : Arith α) (l : List α) : α := l.foldl ops.add ops.zero

/-- The sum of `f 0, ..., f (n - 1)`. -/
def sumOver (ops : Arith α) (n : Nat) (f : Nat → α) : α :=
  sumList ops ((List.range n).map f)

/-- The maximum of a non-empty list (the lowest value for the empty list). -/
def maxOfList (ops : Arith α) : List α → α
  | [] => ops.lowest
  | x :: xs => xs.foldl ops.max x

/-- The maximum of `f 0, ..., f (n - 1)`. -/
def maxOver (ops : Arith α) (n : Nat) (f : Nat → α) : α :=
  maxOfList ops ((List.range n).map f)

/-- The maximum absolute column sum of a matrix: max over columns `j` of the sum over
rows `i` of `|A[i][j]|`. -/
def maxAbsColSum (ops : Arith α) (absT : τ → α) (in_ : af_array τ) : α :=
  maxOver ops in_.dims.d1 fun j =>
    sumOver ops in_.dims.d0 fun i => in_.absAt absT ops.zero i j

/-- The maximum absolute row sum of a matrix: max over rows `i` of the sum over columns
`j` of `|A[i][j]|`. -/
def maxAbsRowSum (ops : Arith α) (absT : τ → α) (in_ : af_array τ) : α :=
  maxOver ops in_.dims.d0 fun i =>
    sumOver ops in_.dims.d1 fun j => in_.absAt absT ops.zero i j

/-- The Euclidean norm: the square root of the sum over all elements of `|a|^2`. -/
def euclideanNorm (ops : Arith α) (absT : τ → α) (in_ : af_array τ) : α :=
  ops.sqrt (sumList ops (in_.data.map fun a => ops.mul (absT a) (absT a)))

/-- The Lp norm of column `j`: `(sum over rows i of |A[i][j]|^p)^(1/p)`, a plain column
sum when `p == 1`. -/
def columnLp [DecidableEq α] (ops : Arith α) (absT : τ → α) (in_ : af_array τ) (p : α)
    (j : Nat) : α :=
  if p = ops.one then sumOver ops in_.dims.d0 fun i => in_.absAt absT ops.zero i j
  else
    ops.pow (sumOver ops in_.dims.d0 fun i => ops.pow (in_.absAt absT ops.zero i j) p)
      (ops.div ops.one p)

/-- The entrywise Lp,q norm: the Lq fold of the `n` per-column Lp norms,
`(sum over columns j of c_j^q)^(1/q)`, a plain sum when `q == 1`. -/
def entrywiseLpq [DecidableEq α] (ops : Arith α) (absT : τ → α) (in_ : af_array τ)
    (p q : α) : α :=
  if q = ops.one then sumOver ops in_.dims.d1 fun j => columnLp ops absT in_ p j
  else
    ops.pow (sumOver ops in_.dims.d1 fun j => ops.pow (columnLp ops absT in_ p j) q)
      (ops.div ops.one q)

end specification

/-! ## The scan instantiation table -/

/-- C10, as stated, fails: the claim gives a narrow integer input its own type as result
type under Min and Max, but `INSTANTIATE_SCAN_ALL(af_min_t)` instantiates `uchar` with
result type `uint`. -/
theorem scan_minmax_width_not_kept :
    ¬ (∀ Ti : CType, isNarrowInt Ti = true →
        scanResultTypes .af_min_t Ti = [Ti] ∧ scanResultTypes .af_max_t Ti = [Ti] ∧
        scanResultTypes .af_add_t Ti = [matching32 Ti]) := by
  intro h
  have h1 := (h .uchar rfl).1
  revert h1
  decide

/-- C10, amended: for every narrow integer input type (signed or unsigned, 8 or 16 bit)
the scan table has exactly one result type under each of Min, Max and Add, and under all
three it is the matching 32-bit signed/unsigned type. -/
theorem scan_narrow_int_promotes (ROp : af_op_t) (Ti : CType)
    (hop : ROp = .af_min_t ∨ ROp = .af_max_t ∨ ROp = .af_add_t)
    (hti : isNarrowInt Ti = true) :
    scanResultTypes ROp Ti = [matching32 Ti] := by
  rcases hop with h | h | h <;> subst h <;> cases Ti <;> first | rfl | cases hti

/-- Witness of `scan_narrow_int_promotes` at Min over unsigned 8-bit input. -/
theorem scan_narrow_int_promotes_witness :
    (af_op_t.af_min_t = .af_min_t ∨ af_op_t.af_min_t = .af_max_t
      ∨ af_op_t.af_min_t = .af_add_t) ∧
    isNarrowInt .uchar = true ∧ scanResultTypes .af_min_t .uchar = [CType.uint] :=
  ⟨Or.inl rfl, rfl, scan_narrow_int_promotes .af_min_t .uchar (Or.inl rfl) rfl⟩

/-! ## The checks of `af_norm` made before the dispatch -/

section boundary
variable {τ α : Type} [DecidableEq α]

/-- C7: an input of rank above 2 makes `af_norm` return `AF_ERR_BATCH` for every kind,
every `p` and `q` and every element type (the rank check comes before the type check),
with `*out` left as it was and no engine call made. -/
theorem af_norm_batch (ops : Arith α) (absT : τ → α) (out0 : α) (in_ : af_array τ)
    (type : af_norm_type) (p q : α) (hrank : in_.dims.ndims > 2) :
    af_norm ops absT out0 in_ type p q = ⟨.AF_ERR_BATCH, out0, []⟩ := by
  unfold af_norm
  rw [if_pos hrank]

/-- C8: an input of rank at most 2 whose element type is an integer or boolean type
makes `af_norm` fail with the type error `AF_ERR_TYPE` and no other code, for every kind
and every `p` and `q`, and also when the input is empty: the guard
`ARG_ASSERT(1, isFloating())` fails before `*out = 0`, before the return for an empty
input and before the dispatch, so `*out` is left as it was and no engine call is made. -/
theorem af_norm_integer_input (ops : Arith α) (absT : τ → α) (out0 : α) (in_ : af_array τ)
    (type : af_norm_type) (p q : α) (hrank : in_.dims.ndims ≤ 2)
    (hty : isFloating in_.type = false) :
    af_norm ops absT out0 in_ type p q = ⟨.AF_ERR_TYPE, out0, []⟩ := by
  unfold af_norm
  rw [if_neg (Nat.not_lt.mpr hrank), hty]
  rfl

/-- C9: an empty (rank 0) input of floating or complex type makes `af_norm` return
success with `*out = 0` for every kind, listed by the dispatcher or not, and every `p`
and `q`, without any engine call (`norm`, and with it `abs` and the reductions, is not
reached). -/
theorem af_norm_empty (ops : Arith α) (absT : τ → α) (out0 : α) (in_ : af_array τ)
    (type : af_norm_type) (p q : α) (hrank : in_.dims.ndims = 0)
    (hty : isFloating in_.type = true) :
    af_norm ops absT out0 in_ type p q = ⟨.AF_SUCCESS, ops.zero, []⟩ := by
  unfold af_norm
  rw [if_neg (by omega), hty]
  simp only [ARG_ASSERT, if_true]
  rw [if_pos hrank]

/-- Past its checks, `af_norm` on a non-empty floating input of rank at most 2 is the
assignment of `norm`, whichever of the five floating types the input has. -/
theorem af_norm_dispatch (ops : Arith α) (absT : τ → α) (out0 : α) (in_ : af_array τ)
    (type : af_norm_type) (p q : α) (hty : isFloating in_.type = true)
    (h1 : 1 ≤ in_.dims.ndims) (h2 : in_.dims.ndims ≤ 2) :
    af_norm ops absT out0 in_ type p q
      = assignNorm ops (norm ops absT (getArray in_) type p q) := by
  unfold af_norm
  rw [if_neg (Nat.not_lt.mpr h2), hty]
  simp only [ARG_ASSERT, if_true]
  rw [if_neg (by omega)]
  cases ht : in_.type <;> first | rfl | (rw [ht] at hty; cases hty)

/-- C6: on a non-empty input of floating or complex type and rank at most 2, kind
Matrix-2 makes `af_norm` return `AF_ERR_NOT_SUPPORTED`, never success, for every `p` and
`q`: `matrixNorm(A, 2)` takes neither the `p == 1` nor the `p == Inf` branch. -/
theorem af_norm_matrix_2 (ops : Arith α) (absT : τ → α) (out0 : α) (in_ : af_array τ)
    (p q : α) (h21 : ops.two ≠ ops.one) (h2i : ops.two ≠ ops.inf)
    (hty : isFloating in_.type = true)
    (h1 : 1 ≤ in_.dims.ndims) (h2 : in_.dims.ndims ≤ 2) :
    af_norm ops absT out0 in_ .AF_NORM_MATRIX_2 p q
      = ⟨.AF_ERR_NOT_SUPPORTED, ops.zero, [.abs]⟩ ∧
    (af_norm ops absT out0 in_ .AF_NORM_MATRIX_2 p q).err ≠ .AF_SUCCESS := by
  rw [af_norm_dispatch ops absT out0 in_ _ p q hty h1 h2]
  simp [norm, matrixNorm, afterAbs, assignNorm, h21, h2i]

/-- C5: kind Vector-P with `p = 2`, `p = 1`, `p = Inf` leaves exactly what kind
EuclideanVector, Vector-1, Vector-Inf leave (code, value and engine calls), for every
input and whatever `p` and `q` those kinds are passed; and with `p = 1` or `p = Inf` no
elementwise power is among the engine calls. -/
theorem af_norm_vector_p_special (ops : Arith α) (absT : τ → α) (out0 : α)
    (in_ : af_array τ) (q p' q' : α) :
    af_norm ops absT out0 in_ .AF_NORM_VECTOR_P ops.two q
      = af_norm ops absT out0 in_ .AF_NORM_EUCLID p' q' ∧
    af_norm ops absT out0 in_ .AF_NORM_VECTOR_P ops.one q
      = af_norm ops absT out0 in_ .AF_NORM_VECTOR_1 p' q' ∧
    af_norm ops absT out0 in_ .AF_NORM_VECTOR_P ops.inf q
      = af_norm ops absT out0 in_ .AF_NORM_VECTOR_INF p' q' ∧
    Call.arithOp .af_pow_t ∉ (af_norm ops absT out0 in_ .AF_NORM_VECTOR_P ops.one q).calls ∧
    Call.arithOp .af_pow_t ∉ (af_norm ops absT out0 in_ .AF_NORM_VECTOR_P ops.inf q).calls := by
  refine ⟨rfl, rfl, rfl, ?_, ?_⟩
  · unfold af_norm
    split
    · simp
    · split
      · simp
      · split
        · simp
        · split <;> simp [norm, vectorNorm, afterAbs, assignNorm]
  · unfold af_norm
    split
    · simp
    · split
      · simp
      · split
        · simp
        · by_cases h : ops.inf = ops.one
          · split <;> simp [norm, vectorNorm, afterAbs, assignNorm, h]
          · split <;> simp [norm, vectorNorm, afterAbs, assignNorm, h]

end boundary

/-! ## Index arithmetic of the engines -/

section lemmas
variable {τ α : Type}

/-- A fold of `max` from the lowest value is the maximum of the list. -/
theorem foldl_max_lowest (ops : Arith α) (hmax : ∀ x, ops.max ops.lowest x = x)
    (l : List α) : l.foldl ops.max ops.lowest = maxOfList ops l := by
  cases l with
  | nil => rfl
  | cons x xs => simp [maxOfList, hmax]

/-- A non-empty shape of rank at most 2 has extent 1 along axes 2 and 3. -/
theorem ndims_le_two {d : dim4} (h1 : 1 ≤ d.ndims) (h2 : d.ndims ≤ 2) :
    d.d2 = 1 ∧ d.d3 = 1 := by
  unfold dim4.ndims at h1 h2
  split_ifs at h1 h2 with he0 he1 h3 h2' h1'
  · omega
  · simp only [dim4.elements] at he1
    have h := Nat.eq_one_of_mul_eq_one_left he1
    have h' := Nat.eq_one_of_mul_eq_one_right he1
    exact ⟨Nat.eq_one_of_mul_eq_one_left h', h⟩
  · omega
  · omega
  · exact ⟨not_not.mp h2', not_not.mp h3⟩
  · exact ⟨not_not.mp h2', not_not.mp h3⟩

/-- Reducing a matrix along axis 0 gives one fold per column. -/
theorem reduce_dim0_data (f : α → α → α) (init z : α) (A : Arr α)
    (h2 : A.dims.d2 = 1) (h3 : A.dims.d3 = 1) :
    (reduce f init z A 0).data = (List.range A.dims.d1).map fun j =>
      (List.range A.dims.d0).foldl (fun acc i => f acc (A.data.getD (i + A.dims.d0 * j) z))
        init := by
  simp only [reduce, dim4.set, dim4.elements, dim4.get, h2, h3, Nat.mul_one, Nat.one_mul]
  apply List.map_congr_left
  intro o ho
  have ho' : o < A.dims.d1 := List.mem_range.mp ho
  simp [Arr.at, dim4.ravel, dim4.unravel, dim4.set, h2, h3, Nat.mod_eq_of_lt ho',
    Nat.div_eq_of_lt ho']

/-- Reducing a matrix along axis 1 gives one fold per row. -/
theorem reduce_dim1_data (f : α → α → α) (init z : α) (A : Arr α)
    (h2 : A.dims.d2 = 1) (h3 : A.dims.d3 = 1) :
    (reduce f init z A 1).data = (List.range A.dims.d0).map fun i =>
      (List.range A.dims.d1).foldl (fun acc j => f acc (A.data.getD (i + A.dims.d0 * j) z))
        init := by
  simp only [reduce, dim4.set, dim4.elements, dim4.get, h2, h3, Nat.mul_one, Nat.one_mul]
  apply List.map_congr_left
  intro o ho
  have ho' : o < A.dims.d0 := List.mem_range.mp ho
  simp [Arr.at, dim4.ravel, dim4.unravel, dim4.set, h2, h3, Nat.mod_eq_of_lt ho',
    Nat.div_eq_of_lt ho']

/-- The linear index of the coordinates of `o` is `o`. -/
theorem ravel_unravel (d : dim4) (o : Nat) : d.ravel (d.unravel o) = o := by
  simp only [dim4.ravel, dim4.unravel]
  rw [← Nat.div_div_eq_div_mul, ← Nat.div_div_eq_div_mul, ← Nat.div_div_eq_div_mul,
    Nat.mod_add_div, Nat.mod_add_div, Nat.mod_add_div]

/-- The coordinates of a linear index below the element count lie inside the shape. -/
theorem unravel_lt (d : dim4) (o : Nat) (h : o < d.elements) :
    (d.unravel o).d0 < d.d0 ∧ (d.unravel o).d1 < d.d1 ∧ (d.unravel o).d2 < d.d2 ∧
    (d.unravel o).d3 < d.d3 := by
  simp only [dim4.elements] at h
  have h0 : 0 < d.d0 := by
    rcases Nat.eq_zero_or_pos d.d0 with h0 | h0
    · simp [h0] at h
    · exact h0
  have h1 : 0 < d.d1 := by
    rcases Nat.eq_zero_or_pos d.d1 with h0 | h0
    · simp [h0] at h
    · exact h0
  have h2 : 0 < d.d2 := by
    rcases Nat.eq_zero_or_pos d.d2 with h0 | h0
    · simp [h0] at h
    · exact h0
  refine ⟨Nat.mod_lt _ h0, Nat.mod_lt _ h1, Nat.mod_lt _ h2, ?_⟩
  simp only [dim4.unravel]
  rw [Nat.div_lt_iff_lt_mul (Nat.mul_pos (Nat.mul_pos h0 h1) h2)]
  rw [Nat.mul_comm]
  exact h

/-- An operand of the output shape is read at the output position itself. -/
theorem bat_unravel (z : α) (A : Arr α) (o : Nat) (h : o < A.dims.elements) :
    A.bat z (A.dims.unravel o) = A.data.getD o z := by
  obtain ⟨h0, h1, h2, h3⟩ := unravel_lt A.dims o h
  have hr := ravel_unravel A.dims o
  simp only [Arr.bat, Arr.at, if_pos h0, if_pos h1, if_pos h2, if_pos h3]
  simp only [dim4.ravel] at hr ⊢
  rw [hr]

/-- Mapping over the positions of a list is mapping over the list. -/
theorem map_range_getD {β : Type} (l : List α) (z : α) (g : α → β) :
    (List.range l.length).map (fun o => g (l.getD o z)) = l.map g := by
  apply List.ext_getElem
  · simp
  · intro n h1 h2
    simp at h1
    simp [List.getElem?_eq_getElem h1]

/-- An elementwise operation of an array with itself, into its own shape. -/
theorem arithOp_self_data (f : α → α → α) (z : α) (A : Arr α)
    (hlen : A.data.length = A.dims.elements) :
    (arithOp f z A A A.dims).data = A.data.map fun x => f x x := by
  rw [← map_range_getD A.data z (fun x => f x x), hlen]
  simp only [arithOp]
  apply List.map_congr_left
  intro o ho
  rw [bat_unravel z A o (List.mem_range.mp ho)]

/-- The value `matrixNorm` computes in its `p == 1` branch. -/
theorem matrixNorm_one_value (ops : Arith α) (absT : τ → α) (in_ : af_array τ)
    (hmax : ∀ x, ops.max ops.lowest x = x) (h1 : 1 ≤ in_.dims.ndims) (h2 : in_.dims.ndims ≤ 2) :
    getScalar ops.zero (reduce_all ops.max ops.lowest
        (reduce ops.add ops.zero ops.zero (abs absT (getArray in_)) 0))
      = maxAbsColSum ops absT in_ := by
  obtain ⟨hd2, hd3⟩ := ndims_le_two h1 h2
  simp only [getScalar, reduce_all, List.headD_cons]
  rw [reduce_dim0_data _ _ _ _ hd2 hd3, foldl_max_lowest ops hmax]
  simp only [maxAbsColSum, maxOver, sumOver, sumList, af_array.absAt, List.foldl_map, abs,
    getArray]

/-- The value `matrixNorm` computes in its `p == Inf` branch. -/
theorem matrixNorm_inf_value (ops : Arith α) (absT : τ → α) (in_ : af_array τ)
    (hmax : ∀ x, ops.max ops.lowest x = x) (h1 : 1 ≤ in_.dims.ndims) (h2 : in_.dims.ndims ≤ 2) :
    getScalar ops.zero (reduce_all ops.max ops.lowest
        (reduce ops.add ops.zero ops.zero (abs absT (getArray in_)) 1))
      = maxAbsRowSum ops absT in_ := by
  obtain ⟨hd2, hd3⟩ := ndims_le_two h1 h2
  simp only [getScalar, reduce_all, List.headD_cons]
  rw [reduce_dim1_data _ _ _ _ hd2 hd3, foldl_max_lowest ops hmax]
  simp only [maxAbsRowSum, maxOver, sumOver, sumList, af_array.absAt, List.foldl_map, abs,
    getArray]

/-- What `af_norm` leaves for kind Matrix-1 on a matrix. -/
theorem af_norm_matrix_1_eq [DecidableEq α] (ops : Arith α) (absT : τ → α) (out0 : α)
    (in_ : af_array τ) (p q : α) (hmax : ∀ x, ops.max ops.lowest x = x)
    (hty : isFloating in_.type = true) (h1 : 1 ≤ in_.dims.ndims) (h2 : in_.dims.ndims ≤ 2) :
    af_norm ops absT out0 in_ .AF_NORM_MATRIX_1 p q
      = ⟨.AF_SUCCESS, maxAbsColSum ops absT in_,
          [.abs, .reduce .af_add_t 0, .reduce_all .af_max_t]⟩ := by
  rw [af_norm_dispatch ops absT out0 in_ _ p q hty h1 h2]
  simp only [norm, matrixNorm, afterAbs, assignNorm, if_true]
  rw [matrixNorm_one_value ops absT in_ hmax h1 h2]

/-- What `af_norm` leaves for kind Matrix-Inf on a matrix. -/
theorem af_norm_matrix_inf_eq [DecidableEq α] (ops : Arith α) (absT : τ → α) (out0 : α)
    (in_ : af_array τ) (p q : α) (hmax : ∀ x, ops.max ops.lowest x = x)
    (hi1 : ops.inf ≠ ops.one)
    (hty : isFloating in_.type = true) (h1 : 1 ≤ in_.dims.ndims) (h2 : in_.dims.ndims ≤ 2) :
    af_norm ops absT out0 in_ .AF_NORM_MATRIX_INF p q
      = ⟨.AF_SUCCESS, maxAbsRowSum ops absT in_,
          [.abs, .reduce .af_add_t 1, .reduce_all .af_max_t]⟩ := by
  rw [af_norm_dispatch ops absT out0 in_ _ p q hty h1 h2]
  simp only [norm, matrixNorm, afterAbs, assignNorm, if_true, if_neg hi1]
  rw [matrixNorm_inf_value ops absT in_ hmax h1 h2]

/-- What `af_norm` leaves for kind EuclideanVector on a non-empty vector or matrix. -/
theorem af_norm_euclid_eq [DecidableEq α] (ops : Arith α) (absT : τ → α) (out0 : α)
    (in_ : af_array τ) (p q : α) (h21 : ops.two ≠ ops.one) (h2i : ops.two ≠ ops.inf)
    (hty : isFloating in_.type = true)
    (h1 : 1 ≤ in_.dims.ndims) (h2 : in_.dims.ndims ≤ 2)
    (hlen : in_.data.length = in_.dims.elements) :
    af_norm ops absT out0 in_ .AF_NORM_EUCLID p q
      = ⟨.AF_SUCCESS, euclideanNorm ops absT in_,
          [.abs, .arithOp .af_mul_t, .reduce_all .af_add_t]⟩ := by
  rw [af_norm_dispatch ops absT out0 in_ _ p q hty h1 h2]
  have hlen' : (abs absT (getArray in_)).data.length
      = (abs absT (getArray in_)).dims.elements := by
    simp [abs, getArray, hlen]
  simp only [norm, vectorNorm, afterAbs, assignNorm, if_true, if_neg h21, if_neg h2i,
    getScalar, reduce_all, List.headD_cons]
  rw [arithOp_self_data _ _ _ hlen']
  simp only [euclideanNorm, sumList, abs, getArray, List.map_map]
  rfl

/-- An elementwise operation of an array with a constant array of its shape. -/
theorem arithOp_value_data (f : α → α → α) (z v : α) (A : Arr α)
    (hlen : A.data.length = A.dims.elements) :
    (arithOp f z A (createValueArray A.dims v) (createValueArray A.dims v).dims).data
      = A.data.map fun x => f x v := by
  rw [← map_range_getD A.data z (fun x => f x v), hlen]
  simp only [arithOp, createValueArray]
  apply List.map_congr_left
  intro o ho
  have ho' : o < A.dims.elements := List.mem_range.mp ho
  rw [bat_unravel z A o ho']
  have hq := bat_unravel z (createValueArray A.dims v) o ho'
  simp only [createValueArray] at hq
  rw [hq]
  simp [List.getD_eq_getElem?_getD, List.getElem?_replicate, ho']

/-- A reduced array holds as many values as its shape has elements. -/
theorem reduce_length (f : α → α → α) (init z : α) (A : Arr α) (dim : Nat) :
    (reduce f init z A dim).data.length = (reduce f init z A dim).dims.elements := by
  simp [reduce]

/-- With `p == 1` the code computes the entrywise L1,q norm: the first stage is the plain
column sum and the second stage folds one value per column. -/
theorem af_norm_lpq_p_one [DecidableEq α] (ops : Arith α) (absT : τ → α) (out0 : α)
    (in_ : af_array τ) (q : α)
    (hty : isFloating in_.type = true) (h1 : 1 ≤ in_.dims.ndims) (h2 : in_.dims.ndims ≤ 2) :
    (af_norm ops absT out0 in_ .AF_NORM_MATRIX_L_PQ ops.one q).err = .AF_SUCCESS ∧
    (af_norm ops absT out0 in_ .AF_NORM_MATRIX_L_PQ ops.one q).out
      = entrywiseLpq ops absT in_ ops.one q := by
  obtain ⟨hd2, hd3⟩ := ndims_le_two h1 h2
  rw [af_norm_dispatch ops absT out0 in_ _ _ q hty h1 h2]
  have hcol : (reduce ops.add ops.zero ops.zero (abs absT (getArray in_)) 0).data
      = (List.range in_.dims.d1).map fun j =>
          sumOver ops in_.dims.d0 fun i => in_.absAt absT ops.zero i j := by
    rw [reduce_dim0_data _ _ _ _ hd2 hd3]
    simp only [sumOver, sumList, af_array.absAt, List.foldl_map, abs, getArray]
  by_cases hq : q = ops.one
  · simp only [norm, LPQNorm, LPQNorm_A_p_norm, afterAbs, assignNorm, if_true, if_pos hq,
      getScalar, reduce_all, List.headD_cons, entrywiseLpq, columnLp]
    rw [hcol]
    simp [sumOver, sumList]
  · simp only [norm, LPQNorm, LPQNorm_A_p_norm, afterAbs, assignNorm, if_true, if_neg hq,
      getScalar, reduce_all, List.headD_cons, entrywiseLpq, columnLp]
    rw [arithOp_value_data _ _ _ _ (reduce_length _ _ _ _ _), hcol]
    simp [sumOver, sumList, List.foldl_map]

/-- With `p != 1` the first stage of `LPQNorm` has the shape of the input, not one value
per column: the root is taken into `invP.dims()`, which is `A.dims()`. -/
theorem LPQNorm_A_p_norm_dims [DecidableEq α] (ops : Arith α) (A : Arr α) (p : α)
    (hp : p ≠ ops.one) :
    (LPQNorm_A_p_norm ops A p).1.dims = A.dims ∧
    (LPQNorm_A_p_norm ops A p).1.data.length = A.dims.elements := by
  simp [LPQNorm_A_p_norm, hp, arithOp, createValueArray]

/-- In the exact model the lowest value is the identity of `max`. -/
theorem dbl_max_lowest (x : Dbl) : dbl.max dbl.lowest x = x := by
  cases x <;> rfl

end lemmas

/-! ## The norms computed -/

section computed
variable {τ α : Type} [DecidableEq α]

/-- C1: on a non-empty input of rank at most 2 (an m x n matrix, column-major) of
floating or complex type, kind Matrix-1
makes `af_norm` return success with the maximum absolute column sum, the max over
columns `j` of the sum over rows `i` of `|A[i][j]|`, through `abs`, a reduce-Add along
axis 0 and a reduce_all-Max, for every `p` and `q`; for the matrix [[1,-2],[3,-4]] the
value is 6. -/
theorem af_norm_matrix_1 (ops : Arith α) (absT : τ → α) (out0 : α) (in_ : af_array τ)
    (p q : α) (hmax : ∀ x, ops.max ops.lowest x = x)
    (hty : isFloating in_.type = true) (h1 : 1 ≤ in_.dims.ndims) (h2 : in_.dims.ndims ≤ 2) :
    af_norm ops absT out0 in_ .AF_NORM_MATRIX_1 p q
      = ⟨.AF_SUCCESS, maxAbsColSum ops absT in_,
          [.abs, .reduce .af_add_t 0, .reduce_all .af_max_t]⟩ ∧
    ∀ o p' q' : Dbl,
      af_norm dbl Dbl.abs o (f64Array ⟨2, 2, 1, 1⟩ [1, 3, -2, -4]) .AF_NORM_MATRIX_1 p' q'
        = ⟨.AF_SUCCESS, .fin 6, [.abs, .reduce .af_add_t 0, .reduce_all .af_max_t]⟩ := by
  refine ⟨af_norm_matrix_1_eq ops absT out0 in_ p q hmax hty h1 h2, ?_⟩
  intro o p' q'
  rw [af_norm_matrix_1_eq dbl Dbl.abs o (f64Array ⟨2, 2, 1, 1⟩ [1, 3, -2, -4]) p' q'
    dbl_max_lowest rfl (by decide) (by decide)]
  decide!

/-- Witness of `af_norm_matrix_1`: the 2 x 3 matrix [[1,-2,0],[3,-4,1/2]] in the exact
model. -/
theorem af_norm_matrix_1_witness :
    (∀ x, dbl.max dbl.lowest x = x) ∧
    isFloating (f64Array ⟨2, 3, 1, 1⟩ [1, 3, -2, -4, 0, 1 / 2]).type = true ∧
    1 ≤ (f64Array ⟨2, 3, 1, 1⟩ [1, 3, -2, -4, 0, 1 / 2]).dims.ndims ∧
    (f64Array ⟨2, 3, 1, 1⟩ [1, 3, -2, -4, 0, 1 / 2]).dims.ndims ≤ 2 ∧
    (af_norm dbl Dbl.abs (.fin 9) (f64Array ⟨2, 3, 1, 1⟩ [1, 3, -2, -4, 0, 1 / 2])
        .AF_NORM_MATRIX_1 (.fin 7) .nan
      = ⟨.AF_SUCCESS, maxAbsColSum dbl Dbl.abs (f64Array ⟨2, 3, 1, 1⟩ [1, 3, -2, -4, 0, 1 / 2]),
          [.abs, .reduce .af_add_t 0, .reduce_all .af_max_t]⟩ ∧
     ∀ o p' q' : Dbl,
      af_norm dbl Dbl.abs o (f64Array ⟨2, 2, 1, 1⟩ [1, 3, -2, -4]) .AF_NORM_MATRIX_1 p' q'
        = ⟨.AF_SUCCESS, .fin 6, [.abs, .reduce .af_add_t 0, .reduce_all .af_max_t]⟩) :=
  ⟨dbl_max_lowest, rfl, by decide, by decide,
    af_norm_matrix_1 dbl Dbl.abs (.fin 9) (f64Array ⟨2, 3, 1, 1⟩ [1, 3, -2, -4, 0, 1 / 2])
      (.fin 7) .nan dbl_max_lowest rfl (by decide) (by decide)⟩

/-- C2: on a non-empty input of rank at most 2 (an m x n matrix, column-major) of
floating or complex type, kind Matrix-Inf makes `af_norm` return
success with the maximum absolute row sum, the max over rows `i` of the sum over columns
`j` of `|A[i][j]|`, through `abs`, a reduce-Add along axis 1 and a reduce_all-Max, for
every `p` and `q`; for the matrix [[1,-2],[3,-4]] the value is 7. -/
theorem af_norm_matrix_inf (ops : Arith α) (absT : τ → α) (out0 : α) (in_ : af_array τ)
    (p q : α) (hmax : ∀ x, ops.max ops.lowest x = x) (hi1 : ops.inf ≠ ops.one)
    (hty : isFloating in_.type = true) (h1 : 1 ≤ in_.dims.ndims) (h2 : in_.dims.ndims ≤ 2) :
    af_norm ops absT out0 in_ .AF_NORM_MATRIX_INF p q
      = ⟨.AF_SUCCESS, maxAbsRowSum ops absT in_,
          [.abs, .reduce .af_add_t 1, .reduce_all .af_max_t]⟩ ∧
    ∀ o p' q' : Dbl,
      af_norm dbl Dbl.abs o (f64Array ⟨2, 2, 1, 1⟩ [1, 3, -2, -4]) .AF_NORM_MATRIX_INF p' q'
        = ⟨.AF_SUCCESS, .fin 7, [.abs, .reduce .af_add_t 1, .reduce_all .af_max_t]⟩ := by
  refine ⟨af_norm_matrix_inf_eq ops absT out0 in_ p q hmax hi1 hty h1 h2, ?_⟩
  intro o p' q'
  rw [af_norm_matrix_inf_eq dbl Dbl.abs o (f64Array ⟨2, 2, 1, 1⟩ [1, 3, -2, -4]) p' q'
    dbl_max_lowest (by decide) rfl (by decide) (by decide)]
  decide!

/-- Witness of `af_norm_matrix_inf`: the 2 x 3 matrix [[1,-2,0],[3,-4,1/2]] in the exact
model. -/
theorem af_norm_matrix_inf_witness :
    (∀ x, dbl.max dbl.lowest x = x) ∧ dbl.inf ≠ dbl.one ∧
    isFloating (f64Array ⟨2, 3, 1, 1⟩ [1, 3, -2, -4, 0, 1 / 2]).type = true ∧
    1 ≤ (f64Array ⟨2, 3, 1, 1⟩ [1, 3, -2, -4, 0, 1 / 2]).dims.ndims ∧
    (f64Array ⟨2, 3, 1, 1⟩ [1, 3, -2, -4, 0, 1 / 2]).dims.ndims ≤ 2 ∧
    (af_norm dbl Dbl.abs (.fin 9) (f64Array ⟨2, 3, 1, 1⟩ [1, 3, -2, -4, 0, 1 / 2])
        .AF_NORM_MATRIX_INF (.fin 7) .nan
      = ⟨.AF_SUCCESS, maxAbsRowSum dbl Dbl.abs (f64Array ⟨2, 3, 1, 1⟩ [1, 3, -2, -4, 0, 1 / 2]),
          [.abs, .reduce .af_add_t 1, .reduce_all .af_max_t]⟩ ∧
     ∀ o p' q' : Dbl,
      af_norm dbl Dbl.abs o (f64Array ⟨2, 2, 1, 1⟩ [1, 3, -2, -4]) .AF_NORM_MATRIX_INF p' q'
        = ⟨.AF_SUCCESS, .fin 7, [.abs, .reduce .af_add_t 1, .reduce_all .af_max_t]⟩) :=
  ⟨dbl_max_lowest, by decide, rfl, by decide, by decide,
    af_norm_matrix_inf dbl Dbl.abs (.fin 9) (f64Array ⟨2, 3, 1, 1⟩ [1, 3, -2, -4, 0, 1 / 2])
      (.fin 7) .nan dbl_max_lowest (by decide) rfl (by decide) (by decide)⟩

/-- C3: on a non-empty input of floating or complex type and rank at most 2, kind
EuclideanVector makes `af_norm` return success with the square root of the sum over all
elements of `|a|^2`, whatever `p` and `q` are passed; for the vector [3,4] the value
is 5. -/
theorem af_norm_euclid (ops : Arith α) (absT : τ → α) (out0 : α) (in_ : af_array τ)
    (p q : α) (h21 : ops.two ≠ ops.one) (h2i : ops.two ≠ ops.inf)
    (hty : isFloating in_.type = true)
    (h1 : 1 ≤ in_.dims.ndims) (h2 : in_.dims.ndims ≤ 2)
    (hlen : in_.data.length = in_.dims.elements) :
    af_norm ops absT out0 in_ .AF_NORM_EUCLID p q
      = ⟨.AF_SUCCESS, euclideanNorm ops absT in_,
          [.abs, .arithOp .af_mul_t, .reduce_all .af_add_t]⟩ ∧
    ∀ o p' q' : Dbl,
      af_norm dbl Dbl.abs o (f64Array ⟨2, 1, 1, 1⟩ [3, 4]) .AF_NORM_EUCLID p' q'
        = ⟨.AF_SUCCESS, .fin 5, [.abs, .arithOp .af_mul_t, .reduce_all .af_add_t]⟩ := by
  refine ⟨af_norm_euclid_eq ops absT out0 in_ p q h21 h2i hty h1 h2 hlen, ?_⟩
  intro o p' q'
  rw [af_norm_euclid_eq dbl Dbl.abs o (f64Array ⟨2, 1, 1, 1⟩ [3, 4]) p' q'
    (by decide!) (by decide) rfl (by decide) (by decide) (by decide)]
  decide!

/-- Witness of `af_norm_euclid`: the vector [1,-2,2] in the exact model. -/
theorem af_norm_euclid_witness :
    dbl.two ≠ dbl.one ∧ dbl.two ≠ dbl.inf ∧
    isFloating (f64Array ⟨3, 1, 1, 1⟩ [1, -2, 2]).type = true ∧
    1 ≤ (f64Array ⟨3, 1, 1, 1⟩ [1, -2, 2]).dims.ndims ∧
    (f64Array ⟨3, 1, 1, 1⟩ [1, -2, 2]).dims.ndims ≤ 2 ∧
    (f64Array ⟨3, 1, 1, 1⟩ [1, -2, 2]).data.length
      = (f64Array ⟨3, 1, 1, 1⟩ [1, -2, 2]).dims.elements ∧
    (af_norm dbl Dbl.abs (.fin 9) (f64Array ⟨3, 1, 1, 1⟩ [1, -2, 2]) .AF_NORM_EUCLID
        (.fin 7) .nan
      = ⟨.AF_SUCCESS, euclideanNorm dbl Dbl.abs (f64Array ⟨3, 1, 1, 1⟩ [1, -2, 2]),
          [.abs, .arithOp .af_mul_t, .reduce_all .af_add_t]⟩ ∧
     ∀ o p' q' : Dbl,
      af_norm dbl Dbl.abs o (f64Array ⟨2, 1, 1, 1⟩ [3, 4]) .AF_NORM_EUCLID p' q'
        = ⟨.AF_SUCCESS, .fin 5, [.abs, .arithOp .af_mul_t, .reduce_all .af_add_t]⟩) :=
  ⟨by decide!, by decide, rfl, by decide, by decide, by decide,
    af_norm_euclid dbl Dbl.abs (.fin 9) (f64Array ⟨3, 1, 1, 1⟩ [1, -2, 2]) (.fin 7) .nan
      (by decide!) (by decide) rfl (by decide) (by decide) (by decide)⟩

/-- C4 at a failing input: for the 2 x 2 matrix [[3,0],[4,0]] with `p = 2`, `q = 1` the
per-column L2 norms are 5 and 0 and the entrywise L2,1 norm is 5, but `af_norm` returns
10: with `p != 1` the first stage holds the four values 5, 5, 0, 0 (each column norm
once per row) and the second stage adds up all four; with `p == 1` the first stage holds
one value per column. -/
theorem LPQNorm_counts_rows :
    af_norm dbl Dbl.abs (.fin 0) (f64Array ⟨2, 2, 1, 1⟩ [3, 4, 0, 0]) .AF_NORM_MATRIX_L_PQ
        (.fin 2) (.fin 1)
      = ⟨.AF_SUCCESS, .fin 10,
          [.abs, .createValueArray, .createValueArray, .arithOp .af_pow_t,
           .reduce .af_add_t 0, .arithOp .af_pow_t, .reduce_all .af_add_t]⟩ ∧
    entrywiseLpq dbl Dbl.abs (f64Array ⟨2, 2, 1, 1⟩ [3, 4, 0, 0]) (.fin 2) (.fin 1) = .fin 5 ∧
    (LPQNorm_A_p_norm dbl (abs Dbl.abs (getArray (f64Array ⟨2, 2, 1, 1⟩ [3, 4, 0, 0])))
        (.fin 2)).1.data = [.fin 5, .fin 5, .fin 0, .fin 0] ∧
    (LPQNorm_A_p_norm dbl (abs Dbl.abs (getArray (f64Array ⟨2, 2, 1, 1⟩ [3, 4, 0, 0])))
        (.fin 1)).1.data = [.fin 7, .fin 0] := by
  decide!

/-- Witness of `af_norm_matrix_2`: the matrix [[1,-2],[3,-4]] in the exact model. -/
theorem af_norm_matrix_2_witness :
    dbl.two ≠ dbl.one ∧ dbl.two ≠ dbl.inf ∧
    isFloating (f64Array ⟨2, 2, 1, 1⟩ [1, 3, -2, -4]).type = true ∧
    1 ≤ (f64Array ⟨2, 2, 1, 1⟩ [1, 3, -2, -4]).dims.ndims ∧
    (f64Array ⟨2, 2, 1, 1⟩ [1, 3, -2, -4]).dims.ndims ≤ 2 ∧
    af_norm dbl Dbl.abs (.fin 9) (f64Array ⟨2, 2, 1, 1⟩ [1, 3, -2, -4]) .AF_NORM_MATRIX_2
        (.fin 2) (.fin 2) = ⟨.AF_ERR_NOT_SUPPORTED, dbl.zero, [.abs]⟩ ∧
    (af_norm dbl Dbl.abs (.fin 9) (f64Array ⟨2, 2, 1, 1⟩ [1, 3, -2, -4]) .AF_NORM_MATRIX_2
        (.fin 2) (.fin 2)).err ≠ .AF_SUCCESS :=
  ⟨by decide!, by decide, rfl, by decide, by decide,
    af_norm_matrix_2 dbl Dbl.abs (.fin 9) (f64Array ⟨2, 2, 1, 1⟩ [1, 3, -2, -4]) (.fin 2)
      (.fin 2) (by decide!) (by decide) rfl (by decide) (by decide)⟩

/-- Witness of `af_norm_batch`: a 2 x 2 x 2 tensor of 32-bit integers. -/
theorem af_norm_batch_witness :
    (af_array.mk .s32 ⟨2, 2, 2, 1⟩ (List.replicate 8 (Dbl.fin 1))).dims.ndims > 2 ∧
    af_norm dbl Dbl.abs (.fin 9) (af_array.mk .s32 ⟨2, 2, 2, 1⟩ (List.replicate 8 (Dbl.fin 1)))
        .AF_NORM_VECTOR_1 (.fin 0) (.fin 0)
      = ⟨.AF_ERR_BATCH, .fin 9, []⟩ :=
  ⟨by decide,
    af_norm_batch dbl Dbl.abs (.fin 9)
      (af_array.mk .s32 ⟨2, 2, 2, 1⟩ (List.replicate 8 (Dbl.fin 1))) .AF_NORM_VECTOR_1
      (.fin 0) (.fin 0) (by decide)⟩

/-- Witness of `af_norm_integer_input`: a vector of two 32-bit integers with kind
Vector-1, and an empty array of unsigned 8-bit integers with kind Matrix-1. -/
theorem af_norm_integer_input_witness :
    (af_array.mk .s32 ⟨2, 1, 1, 1⟩ [Dbl.fin 1, Dbl.fin 2]).dims.ndims ≤ 2 ∧
    isFloating (af_array.mk .s32 ⟨2, 1, 1, 1⟩ [Dbl.fin 1, Dbl.fin 2]).type = false ∧
    af_norm dbl Dbl.abs (.fin 9) (af_array.mk .s32 ⟨2, 1, 1, 1⟩ [Dbl.fin 1, Dbl.fin 2])
        .AF_NORM_VECTOR_1 (.fin 0) (.fin 0)
      = ⟨.AF_ERR_TYPE, .fin 9, []⟩ ∧
    af_norm dbl Dbl.abs (.fin 9) (af_array.mk .u8 ⟨0, 1, 1, 1⟩ ([] : List Dbl))
        .AF_NORM_MATRIX_1 (.fin 0) (.fin 0)
      = ⟨.AF_ERR_TYPE, .fin 9, []⟩ :=
  ⟨by decide, rfl,
    af_norm_integer_input dbl Dbl.abs (.fin 9)
      (af_array.mk .s32 ⟨2, 1, 1, 1⟩ [Dbl.fin 1, Dbl.fin 2]) .AF_NORM_VECTOR_1 (.fin 0)
      (.fin 0) (by decide) rfl,
    af_norm_integer_input dbl Dbl.abs (.fin 9) (af_array.mk .u8 ⟨0, 1, 1, 1⟩ ([] : List Dbl))
      .AF_NORM_MATRIX_1 (.fin 0) (.fin 0) (by decide) rfl⟩

/-- Witness of `af_norm_empty`: an empty single-precision array and a kind the dispatcher
does not list. -/
theorem af_norm_empty_witness :
    (af_array.mk .f32 ⟨0, 3, 1, 1⟩ ([] : List Dbl)).dims.ndims = 0 ∧
    isFloating (af_array.mk .f32 ⟨0, 3, 1, 1⟩ ([] : List Dbl)).type = true ∧
    af_norm dbl Dbl.abs (.fin 9) (af_array.mk .f32 ⟨0, 3, 1, 1⟩ ([] : List Dbl))
        (.other 99) (.fin 3) (.fin 4)
      = ⟨.AF_SUCCESS, dbl.zero, []⟩ :=
  ⟨by decide, rfl,
    af_norm_empty dbl Dbl.abs (.fin 9) (af_array.mk .f32 ⟨0, 3, 1, 1⟩ ([] : List Dbl))
      (.other 99) (.fin 3) (.fin 4) (by decide) rfl⟩

end computed

end ArrayFire
